import Mathlib

/-!
Verification of the PoS-Inventory-Tracking-App (offline cashier and
inventory tracker for food/beverage booths).

Shallow embedding notes:
* JavaScript numbers are modeled as exact rationals (`ℚ`).
* The `localStorage`-backed store (`DataManager`) is modeled as an explicit
  `AppState` record threaded through the operations; each JS method that
  reads and writes storage becomes a pure function on `AppState`.
* `generateId()` (timestamp + randomness, documented as producing a unique
  id) is modeled as a `Nat` counter `nextId` carried in the state.
* Thrown `Error(message)` values are modeled as `Except.error message`
  paired with the state as it stands at the throw site (all throws in the
  embedded code happen before any store write, which the theorems verify).
* Display-only fields that no embedded function reads (ingredient name and
  unit, timestamps, `paymentType`, `lowStockThreshold`) are omitted.
* The repository holds several revisions of the same application.
  `src/app.js` is embedded in namespaces `DataManager` / `BusinessLogic` /
  `UIManager`; the later revision `src/unnamed/part_003` (which adds the
  separate demo-sales log and the quantity-summing breakdown) is embedded
  under namespace `V3`.  Functions whose bodies are identical in both
  revisions are embedded once and shared.
-/

/-- Truthiness of an optional JS number: `x || 1` yields `1` when the field
is absent and also when it is `0` (JS treats `0` as falsy). Used for
`sale.quantity || 1`. -/
def qtyOrOne (q : Option ℚ) : ℚ :=
  match q with
  | none => 1
  | some x => if x = 0 then 1 else x

/-- Ingredient record (src/app.js data model): unique `id` plus the mutable
remaining stock `totalQuantity`.  Name, unit and `lowStockThreshold` are
display-only for the embedded operations and omitted. -/
structure Ingredient where
  id : Nat
  totalQuantity : ℚ
deriving DecidableEq, Repr

/-- One recipe line of a product: `{ingredientId, quantity}`. -/
structure RecipeEntry where
  ingredientId : Nat
  quantity : ℚ
deriving DecidableEq, Repr

/-- Product record: `{id, name, sellingPrice, active, recipe}`. -/
structure Product where
  id : Nat
  name : String
  sellingPrice : ℚ
  active : Bool
  recipe : List RecipeEntry
deriving DecidableEq, Repr

/-- Sale record as built by `processSale` and `recordSale`:
`{id, productId, productName, sellingPrice, quantity, eventId, isDemoMode}`.
`sellingPrice` is the total charged amount (`product.sellingPrice * quantity`).
The constant `paymentType: 'cash'` and the timestamp are omitted. -/
structure Sale where
  id : Nat
  productId : Nat
  productName : String
  sellingPrice : ℚ
  quantity : Option ℚ
  eventId : Option Nat
  isDemoMode : Bool
deriving DecidableEq, Repr

/-- Status of an event session (`'active'` / `'closed'`). -/
inductive EventStatus where
  | active
  | closed
deriving DecidableEq, Repr

/-- Active event session: `{id, name, fixedCost, status}` (start time and
the starting-inventory snapshot are display-only and omitted). -/
structure Event where
  id : Nat
  name : String
  fixedCost : ℚ
  status : EventStatus
deriving DecidableEq, Repr

/-- Closed event as appended to the event history by `endEvent`:
the event fields plus the computed totals. -/
structure ClosedEvent where
  id : Nat
  name : String
  fixedCost : ℚ
  totalRevenue : ℚ
  profit : ℚ
  itemsSold : Nat
  salesLog : List Sale
deriving DecidableEq, Repr

/-- The whole persistent store (`localStorage` keys of `DataManager`).
`demoSales`, `demoLastSale` and `demoMode` (from `settings.demoMode`) are
the keys added by the src/unnamed/part_003 revision; src/app.js functions
simply never touch them. -/
structure AppState where
  ingredients : List Ingredient
  products : List Product
  sales : List Sale
  lastSale : Option Sale
  activeEvent : Option Event
  eventHistory : List ClosedEvent
  demoSales : List Sale
  demoLastSale : Option Sale
  demoMode : Bool
  nextId : Nat
deriving DecidableEq, Repr

-- ========================================
-- Costing engine (batch purchase model)
-- ========================================

/-- Modelled from the spec: the batch-costing ingredient form.  The code
revision carrying the costing engine is not under src/ (only
src/README.md and src/MIGRATION_GUIDE.md document it): an ingredient
either carries `{totalCost, totalQuantity}` (batch model) or
`{totalQuantity}` alone (pure-quantity mode, cost fields absent). -/
structure CostIngredient where
  id : Nat
  totalCost : Option ℚ
  totalQuantity : Option ℚ
deriving DecidableEq, Repr

/-- Modelled from the spec: `unitCost(ingredient)` returns `0` if
`totalQuantity` is zero, undefined, or the ingredient carries no cost
fields (pure-quantity mode); otherwise returns `totalCost / totalQuantity`.
The value is computed on demand and never stored. -/
def unitCost (ing : CostIngredient) : ℚ :=
  match ing.totalQuantity, ing.totalCost with
  | none, _ => 0
  | some _, none => 0
  | some q, some c => if q = 0 then 0 else c / q

/-- Modelled from the spec: `productCost(recipe)` sums
`unitCost(ingredient) * entry.quantity` over the recipe entries; missing
ingredient references are skipped (contribute `0`). -/
def productCost (ingredients : List CostIngredient) (recipe : List RecipeEntry) : ℚ :=
  (recipe.map (fun e =>
    match ingredients.find? (fun i => i.id == e.ingredientId) with
    | some ing => unitCost ing * e.quantity
    | none => 0)).sum

-- ========================================
-- DataManager (src/app.js)
-- ========================================

namespace DataManager

/-- Embeds `DataManager.recordSale` (src/app.js:340-349): assigns a fresh id,
defaults `quantity` via `sale.quantity || 1`, appends to the sales log and
sets the Last Sale pointer.  This revision keeps every sale, demo or not,
in the single `booth_sales` log. -/
def recordSale (s : AppState) (sale : Sale) : Sale × AppState :=
  let sale' : Sale := { sale with id := s.nextId, quantity := some (qtyOrOne sale.quantity) }
  (sale', { s with sales := s.sales ++ [sale'],
                   lastSale := some sale',
                   nextId := s.nextId + 1 })

/-- Embeds `DataManager.endEvent` (src/app.js:86-112): returns `null` when
no event is active; otherwise computes `totalRevenue` as the sum of
`sale.sellingPrice`, `profit = totalRevenue - fixedCost`, and
`itemsSold = sales.length` (the transaction count), appends the closed
event to the history and clears the active-event slot. -/
def endEvent (s : AppState) : Option ClosedEvent × AppState :=
  match s.activeEvent with
  | none => (none, s)
  | some e =>
    if e.status ≠ EventStatus.active then (none, s)
    else
      let totalRevenue := s.sales.foldl (fun sum sale => sum + sale.sellingPrice) 0
      let ce : ClosedEvent :=
        { id := e.id, name := e.name, fixedCost := e.fixedCost,
          totalRevenue := totalRevenue,
          profit := totalRevenue - e.fixedCost,
          itemsSold := s.sales.length,
          salesLog := s.sales }
      (some ce, { s with eventHistory := s.eventHistory ++ [ce], activeEvent := none })

/-- Embeds `DataManager.updateProduct` (src/app.js:317-326) as used by the
product form (`UIManager.saveProduct` always supplies the full field set
`{name, sellingPrice, recipe, active}`): replaces those fields on the
product with the given id, keeping its id. -/
def updateProduct (s : AppState) (id : Nat) (name : String) (sellingPrice : ℚ)
    (recipe : List RecipeEntry) (active : Bool) : AppState :=
  { s with products := s.products.map (fun p =>
      if p.id == id then
        { p with name := name, sellingPrice := sellingPrice, recipe := recipe, active := active }
      else p) }

/-- Embeds `DataManager.deleteIngredient` (src/app.js:297-301): filters the
ingredient with the given id out of the list (no referential check at this
layer). -/
def deleteIngredient (s : AppState) (id : Nat) : AppState :=
  { s with ingredients := s.ingredients.filter (fun i => i.id != id) }

end DataManager

-- ========================================
-- BusinessLogic (src/app.js)
-- ========================================

namespace BusinessLogic

/-- Embeds the active-event test of `processSale` (src/app.js:475-478):
`activeEvent && activeEvent.status === 'active'`. -/
def eventActive (s : AppState) : Bool :=
  match s.activeEvent with
  | some e => decide (e.status = EventStatus.active)
  | none => false

/-- Embeds `BusinessLogic.canSellProduct` (src/app.js:411-427, identical in
src/unnamed/part_003:469-485): false if the product is missing or inactive,
or if any recipe line's ingredient is missing or has
`totalQuantity < recipeItem.quantity * quantity`. -/
def canSellProduct (s : AppState) (productId : Nat) (quantity : ℚ) : Bool :=
  match s.products.find? (fun p => p.id == productId) with
  | none => false
  | some product =>
    if !product.active then false
    else product.recipe.all (fun e =>
      match s.ingredients.find? (fun i => i.id == e.ingredientId) with
      | none => false
      | some ing => decide (e.quantity * quantity ≤ ing.totalQuantity))

/-- Embeds the JS statement
`ingredients.find(i => i.id === iid).totalQuantity += delta`:
the first element with the matching id is updated (JS `find` returns the
first match); no match means no change, matching the guarded restore in
`undoLastSale` and the post-`canSell` deduction where a match always
exists. -/
def addQtyFirst (ings : List Ingredient) (iid : Nat) (delta : ℚ) : List Ingredient :=
  match ings with
  | [] => []
  | ing :: rest =>
    if ing.id = iid then { ing with totalQuantity := ing.totalQuantity + delta } :: rest
    else ing :: addQtyFirst rest iid delta

/-- Embeds the deduction loop of `processSale` (src/app.js:495-499,
identical in src/unnamed/part_003:556-560): for each recipe line, subtract
`recipeItem.quantity * quantity` from the matching ingredient. -/
def deductRecipe (ings : List Ingredient) (recipe : List RecipeEntry) (quantity : ℚ) :
    List Ingredient :=
  recipe.foldl (fun acc e => addQtyFirst acc e.ingredientId (-(e.quantity * quantity))) ings

/-- Embeds the restore loop of `undoLastSale` (src/app.js:532-539, identical
in src/unnamed/part_003:601-610): for each recipe line, add back
`recipeItem.quantity * saleQuantity` to the matching ingredient. -/
def restoreRecipe (ings : List Ingredient) (recipe : List RecipeEntry) (quantity : ℚ) :
    List Ingredient :=
  recipe.foldl (fun acc e => addQtyFirst acc e.ingredientId (e.quantity * quantity)) ings

/-- Embeds `BusinessLogic.processSale` (src/app.js:473-514).  Guard order is
the source's: no-active-event (skipped in demo mode), quantity `< 1`,
`canSellProduct`; every throw happens before any store write, so the error
cases return the input state.  The inner re-`find` of the product cannot
miss after `canSellProduct` passed; its unreachable `none` branch is mapped
to the same insufficient-ingredients error. -/
def processSale (s : AppState) (productId : Nat) (quantity : ℚ) (isDemoMode : Bool) :
    Except String Sale × AppState :=
  if !isDemoMode && !eventActive s then
    (Except.error "No active event. Please start an event before making sales.", s)
  else if quantity < 1 then
    (Except.error "Quantity must be at least 1", s)
  else if !canSellProduct s productId quantity then
    (Except.error "Product cannot be sold - insufficient ingredients", s)
  else
    match s.products.find? (fun p => p.id == productId) with
    | none => (Except.error "Product cannot be sold - insufficient ingredients", s)
    | some product =>
      let ings' := if isDemoMode then s.ingredients
                   else deductRecipe s.ingredients product.recipe quantity
      let sale : Sale :=
        { id := 0, productId := product.id, productName := product.name,
          sellingPrice := product.sellingPrice * quantity,
          quantity := some quantity,
          eventId := s.activeEvent.map (fun e => e.id),
          isDemoMode := isDemoMode }
      let res := DataManager.recordSale { s with ingredients := ings' } sale
      (Except.ok res.1, res.2)

/-- Embeds `BusinessLogic.undoLastSale` (src/app.js:520-552): fails when the
Last Sale pointer is unset; otherwise restores ingredient quantities using
the product's current recipe and `lastSale.quantity || 1` (skipped when the
product no longer exists), removes the sale from the log by id, and clears
the Last Sale pointer. -/
def undoLastSale (s : AppState) : Except String Sale × AppState :=
  match s.lastSale with
  | none => (Except.error "No sale to undo", s)
  | some lastSale =>
    let ings' :=
      match s.products.find? (fun p => p.id == lastSale.productId) with
      | some product => restoreRecipe s.ingredients product.recipe (qtyOrOne lastSale.quantity)
      | none => s.ingredients
    (Except.ok lastSale,
      { s with ingredients := ings',
               sales := s.sales.filter (fun x => x.id != lastSale.id),
               lastSale := none })

/-- Result of `getSalesSummary`. -/
structure Summary where
  totalRevenue : ℚ
  fixedCost : ℚ
  netProfit : ℚ
  itemsSold : ℚ
  hasActiveEvent : Bool
deriving DecidableEq, Repr

/-- Embeds `BusinessLogic.getSalesSummary` (src/app.js:560-583):
`totalRevenue` sums `sale.sellingPrice`; `fixedCost` comes from the active
event (0 when none); `netProfit = totalRevenue - fixedCost`; `itemsSold`
sums `sale.quantity || 1`. -/
def getSalesSummary (s : AppState) : Summary :=
  let totalRevenue := s.sales.foldl (fun sum sale => sum + sale.sellingPrice) 0
  let fixedCost := match s.activeEvent with
    | some e => e.fixedCost
    | none => 0
  let itemsSold := s.sales.foldl (fun sum sale => sum + qtyOrOne sale.quantity) 0
  { totalRevenue := totalRevenue, fixedCost := fixedCost,
    netProfit := totalRevenue - fixedCost, itemsSold := itemsSold,
    hasActiveEvent := eventActive s }

/-- One line of the per-product breakdown: `{productName, count, revenue}`
(the grouping key `productId` is the enclosing JS object key). -/
structure BreakdownEntry where
  productName : String
  count : ℚ
  revenue : ℚ
deriving DecidableEq, Repr

/-- Models `Array.prototype.sort` with comparator
`(a, b) => b.revenue - a.revenue` (descending by revenue): an insertion
sort producing a permutation of the input ordered by the comparator, which
is all ECMAScript guarantees of `sort`. -/
def insertByRevenueDesc (g : BreakdownEntry) :
    List BreakdownEntry → List BreakdownEntry
  | [] => [g]
  | h :: t => if h.revenue < g.revenue then g :: h :: t else h :: insertByRevenueDesc g t

/-- Sorts breakdown entries in descending order of revenue (see
`insertByRevenueDesc`). -/
def sortByRevenueDesc (l : List BreakdownEntry) : List BreakdownEntry :=
  l.foldr insertByRevenueDesc []

/-- Embeds the accumulation step of `getSalesBreakdown` (src/app.js:592-602).
The JS object keyed by `productId` is modeled as an insertion-ordered
association list.  A first sale of a product installs
`{productName, count: 0, revenue: 0}` and immediately adds; this revision
does `count++` (one per transaction) and adds `sale.sellingPrice` to
`revenue`. -/
def addToBreakdown (m : List (Nat × BreakdownEntry)) (sale : Sale) :
    List (Nat × BreakdownEntry) :=
  if m.any (fun kv => kv.1 == sale.productId) then
    m.map (fun kv =>
      if kv.1 == sale.productId then
        (kv.1, { kv.2 with count := kv.2.count + 1,
                           revenue := kv.2.revenue + sale.sellingPrice })
      else kv)
  else
    m ++ [(sale.productId,
           { productName := sale.productName, count := 1, revenue := sale.sellingPrice })]

/-- Embeds `BusinessLogic.getSalesBreakdown` (src/app.js:588-605): groups
sales by `productId` (insertion order), then returns
`Object.values(breakdown)` sorted descending by revenue.  Note this
revision counts transactions, not quantities (contrast
`V3.BusinessLogic.getSalesBreakdown`). -/
def getSalesBreakdown (s : AppState) : List BreakdownEntry :=
  sortByRevenueDesc ((s.sales.foldl addToBreakdown []).map Prod.snd)

end BusinessLogic

-- ========================================
-- UIManager (src/app.js)
-- ========================================

namespace UIManager

/-- Embeds `UIManager.deleteIngredient` (src/app.js:1514-1538): if any
product's recipe references the ingredient, show the
`Cannot delete - used in: ...` error and leave the store untouched;
otherwise (after the confirm dialog) delete via
`DataManager.deleteIngredient`. -/
def deleteIngredient (s : AppState) (id : Nat) : Except String Unit × AppState :=
  let usedInProducts := s.products.filter (fun p => p.recipe.any (fun r => r.ingredientId == id))
  if usedInProducts.length > 0 then
    (Except.error ("Cannot delete - used in: " ++
      String.intercalate ", " (usedInProducts.map (fun p => p.name))), s)
  else
    (Except.ok (), DataManager.deleteIngredient s id)

end UIManager

-- ========================================
-- Revision src/unnamed/part_003 ("V3"):
-- demo-sales separation and fixed breakdown
-- ========================================

namespace V3

namespace DataManager

/-- Embeds `DataManager.recordSale` of src/unnamed/part_003:386-407: assigns
id and default quantity as before, then routes the sale to the separate
demo log (`booth_demo_sales` / `booth_demo_last_sale`) when
`sale.isDemoMode` is set, and to the real log otherwise. -/
def recordSale (s : AppState) (sale : Sale) : Sale × AppState :=
  let sale' : Sale := { sale with id := s.nextId, quantity := some (qtyOrOne sale.quantity) }
  if sale'.isDemoMode then
    (sale', { s with demoSales := s.demoSales ++ [sale'],
                     demoLastSale := some sale',
                     nextId := s.nextId + 1 })
  else
    (sale', { s with sales := s.sales ++ [sale'],
                     lastSale := some sale',
                     nextId := s.nextId + 1 })

end DataManager

namespace BusinessLogic

/-- Embeds `BusinessLogic.processSale` of src/unnamed/part_003:531-575.
Identical to the src/app.js version except that the demo flag is read from
`settings.demoMode` instead of being a parameter, and the sale is recorded
through the routing `V3.DataManager.recordSale`.  The guards, the deduction
skip in demo mode and the sale record are unchanged. -/
def processSale (s : AppState) (productId : Nat) (quantity : ℚ) :
    Except String Sale × AppState :=
  let isDemoMode := s.demoMode
  if !isDemoMode && !BusinessLogic.eventActive s then
    (Except.error "No active event. Please start an event before making sales.", s)
  else if quantity < 1 then
    (Except.error "Quantity must be at least 1", s)
  else if !BusinessLogic.canSellProduct s productId quantity then
    (Except.error "Product cannot be sold - insufficient ingredients", s)
  else
    match s.products.find? (fun p => p.id == productId) with
    | none => (Except.error "Product cannot be sold - insufficient ingredients", s)
    | some product =>
      let ings' := if isDemoMode then s.ingredients
                   else BusinessLogic.deductRecipe s.ingredients product.recipe quantity
      let sale : Sale :=
        { id := 0, productId := product.id, productName := product.name,
          sellingPrice := product.sellingPrice * quantity,
          quantity := some quantity,
          eventId := s.activeEvent.map (fun e => e.id),
          isDemoMode := isDemoMode }
      let res := V3.DataManager.recordSale { s with ingredients := ings' } sale
      (Except.ok res.1, res.2)

/-- Embeds `BusinessLogic.getSalesSummary` of src/unnamed/part_003:637-665:
the same computation as the src/app.js version but over the demo log when
`settings.demoMode` is on. -/
def getSalesSummary (s : AppState) : BusinessLogic.Summary :=
  let sales := if s.demoMode then s.demoSales else s.sales
  let totalRevenue := sales.foldl (fun sum sale => sum + sale.sellingPrice) 0
  let fixedCost := match s.activeEvent with
    | some e => e.fixedCost
    | none => 0
  let itemsSold := sales.foldl (fun sum sale => sum + qtyOrOne sale.quantity) 0
  { totalRevenue := totalRevenue, fixedCost := fixedCost,
    netProfit := totalRevenue - fixedCost, itemsSold := itemsSold,
    hasActiveEvent := BusinessLogic.eventActive s }

/-- Embeds the accumulation step of `getSalesBreakdown`
(src/unnamed/part_003:680-691).  The JS object keyed by `productId` is
modeled as an insertion-ordered association list.  A first sale of a
product installs `{productName, count: 0, revenue: 0}` and immediately
adds; this revision adds `sale.quantity || 1` to `count` (the FIXED batch
counting), and `sale.sellingPrice` to `revenue`. -/
def addToBreakdown (m : List (Nat × BusinessLogic.BreakdownEntry)) (sale : Sale) :
    List (Nat × BusinessLogic.BreakdownEntry) :=
  if m.any (fun kv => kv.1 == sale.productId) then
    m.map (fun kv =>
      if kv.1 == sale.productId then
        (kv.1, { kv.2 with count := kv.2.count + qtyOrOne sale.quantity,
                           revenue := kv.2.revenue + sale.sellingPrice })
      else kv)
  else
    m ++ [(sale.productId,
           { productName := sale.productName,
             count := qtyOrOne sale.quantity,
             revenue := sale.sellingPrice })]

/-- Embeds `BusinessLogic.getSalesBreakdown` of src/unnamed/part_003:672-694:
selects the demo or real log per `settings.demoMode`, groups sales by
`productId` (insertion order), then returns `Object.values(breakdown)`
sorted descending by revenue. -/
def getSalesBreakdown (s : AppState) : List BusinessLogic.BreakdownEntry :=
  let sales := if s.demoMode then s.demoSales else s.sales
  BusinessLogic.sortByRevenueDesc ((sales.foldl addToBreakdown []).map Prod.snd)

end BusinessLogic

end V3

-- ========================================
-- Specification-side predicates (written
-- from the claims' wording, for comparison
-- with the embedded code)
-- ========================================

/-- Failure condition named by the insufficient-ingredients claim: the
product is missing or inactive, or some recipe line's ingredient is
missing or has strictly less remaining `totalQuantity` than the required
`recipeQty * quantity`. -/
def insufficientSpec (s : AppState) (productId : Nat) (quantity : ℚ) : Prop :=
  match s.products.find? (fun p => p.id == productId) with
  | none => True
  | some product =>
    product.active = false ∨ ∃ e ∈ product.recipe,
      match s.ingredients.find? (fun i => i.id == e.ingredientId) with
      | none => True
      | some ing => ing.totalQuantity < e.quantity * quantity

/-- Some product's recipe references the ingredient id (the dangling-
reference guard condition, in the claim's wording). -/
def referencesIngredient (s : AppState) (iid : Nat) : Prop :=
  ∃ p ∈ s.products, ∃ r ∈ p.recipe, r.ingredientId = iid

/-- Specification-side per-product group (from the breakdown claim's
wording): the entry for a product id carries the product name of its first
sale, the sum of the sale quantities (defaulting to 1), and the sum of
`sale.sellingPrice` over that product's sales. -/
def breakdownGroup (l : List Sale) (pid : Nat) : BusinessLogic.BreakdownEntry :=
  let fs := l.filter (fun x => x.productId == pid)
  { productName := (fs.head?.map (fun x => x.productName)).getD "",
    count := (fs.map (fun x => qtyOrOne x.quantity)).sum,
    revenue := (fs.map (fun x => x.sellingPrice)).sum }

-- ========================================
-- Concrete states used by the witnesses
-- ========================================

/-- Two recorded sales (one batch sale of 2, one with no quantity field)
under an active event with fixed cost 7. -/
def w2state : AppState :=
  { ingredients := [], products := [],
    sales := [
      { id := 1, productId := 1, productName := "A", sellingPrice := 10,
        quantity := some 2, eventId := none, isDemoMode := false },
      { id := 2, productId := 2, productName := "B", sellingPrice := 5,
        quantity := none, eventId := none, isDemoMode := false } ],
    lastSale := none,
    activeEvent := some { id := 9, name := "E", fixedCost := 7, status := EventStatus.active },
    eventHistory := [], demoSales := [], demoLastSale := none,
    demoMode := false, nextId := 3 }

/-- One ingredient with stock 10 and one sellable product consuming 2 per
unit, under an active event. -/
def w3state : AppState :=
  { ingredients := [{ id := 1, totalQuantity := 10 }],
    products := [
      { id := 2, name := "P", sellingPrice := 5, active := true,
        recipe := [{ ingredientId := 1, quantity := 2 }] } ],
    sales := [], lastSale := none,
    activeEvent := some { id := 9, name := "E", fixedCost := 7, status := EventStatus.active },
    eventHistory := [], demoSales := [], demoLastSale := none,
    demoMode := false, nextId := 0 }

/-- The sale that `processSale w3state 2 2 false` commits. -/
def w3sale : Sale :=
  { id := 0, productId := 2, productName := "P", sellingPrice := 10,
    quantity := some 2, eventId := some 9, isDemoMode := false }

/-- The state after `processSale w3state 2 2 false`: stock 10 - 2*2 = 6,
the sale appended and set as Last Sale. -/
def w3mid : AppState :=
  { w3state with
    ingredients := [{ id := 1, totalQuantity := 6 }],
    sales := [w3sale], lastSale := some w3sale, nextId := 1 }

/-- Exact-stock boundary: stock 4 with a recipe consuming 2 per unit, so a
sale of 2 units needs exactly the whole stock. -/
def w4state : AppState :=
  { ingredients := [{ id := 1, totalQuantity := 4 }],
    products := [
      { id := 2, name := "P", sellingPrice := 5, active := true,
        recipe := [{ ingredientId := 1, quantity := 2 }] } ],
    sales := [], lastSale := none,
    activeEvent := some { id := 9, name := "E", fixedCost := 7, status := EventStatus.active },
    eventHistory := [], demoSales := [], demoLastSale := none,
    demoMode := false, nextId := 0 }

/-- Same scenario as `w3state`, with one pre-existing sale in the log. -/
def w5state : AppState :=
  { ingredients := [{ id := 1, totalQuantity := 10 }],
    products := [
      { id := 2, name := "P", sellingPrice := 5, active := true,
        recipe := [{ ingredientId := 1, quantity := 2 }] } ],
    sales := [
      { id := 0, productId := 2, productName := "P", sellingPrice := 5,
        quantity := some 1, eventId := some 9, isDemoMode := false } ],
    lastSale := none,
    activeEvent := some { id := 9, name := "E", fixedCost := 7, status := EventStatus.active },
    eventHistory := [], demoSales := [], demoLastSale := none,
    demoMode := false, nextId := 1 }

/-- The sale that `processSale w5state 2 2 false` commits. -/
def w5sale : Sale :=
  { id := 1, productId := 2, productName := "P", sellingPrice := 10,
    quantity := some 2, eventId := some 9, isDemoMode := false }

/-- The state after `processSale w5state 2 2 false`. -/
def w5mid : AppState :=
  { w5state with
    ingredients := [{ id := 1, totalQuantity := 6 }],
    sales := w5state.sales ++ [w5sale], lastSale := some w5sale, nextId := 2 }

/-- A state reachable through the app's own forms: stock 4 of ingredient 1
and an active product whose recipe lists ingredient 1 twice (the recipe
builder does not merge duplicate rows), each line consuming 3. -/
def w6state : AppState :=
  { ingredients := [{ id := 1, totalQuantity := 4 }],
    products := [
      { id := 2, name := "P", sellingPrice := 5, active := true,
        recipe := [{ ingredientId := 1, quantity := 3 }, { ingredientId := 1, quantity := 3 }] } ],
    sales := [], lastSale := none,
    activeEvent := some { id := 9, name := "E", fixedCost := 7, status := EventStatus.active },
    eventHistory := [], demoSales := [], demoLastSale := none,
    demoMode := false, nextId := 0 }

/-- Demo mode on (`settings.demoMode = true`), no active event, with stock
and a sellable product, one real sale already in the log. -/
def w7state : AppState :=
  { ingredients := [{ id := 1, totalQuantity := 10 }],
    products := [
      { id := 2, name := "P", sellingPrice := 5, active := true,
        recipe := [{ ingredientId := 1, quantity := 2 }] } ],
    sales := [
      { id := 0, productId := 2, productName := "P", sellingPrice := 5,
        quantity := some 1, eventId := some 9, isDemoMode := false } ],
    lastSale := none, activeEvent := none,
    eventHistory := [], demoSales := [], demoLastSale := none,
    demoMode := true, nextId := 1 }

/-- One ingredient referenced by the single product's recipe. -/
def w9state : AppState :=
  { ingredients := [{ id := 1, totalQuantity := 10 }, { id := 2, totalQuantity := 3 }],
    products := [
      { id := 5, name := "P", sellingPrice := 5, active := true,
        recipe := [{ ingredientId := 1, quantity := 2 }] } ],
    sales := [], lastSale := none, activeEvent := none,
    eventHistory := [], demoSales := [], demoLastSale := none,
    demoMode := false, nextId := 6 }

/-- An active event with fixed cost 3 and a log holding a batch sale of
quantity 2 and a single-unit sale. -/
def w10state : AppState :=
  { ingredients := [], products := [],
    sales := [
      { id := 1, productId := 1, productName := "A", sellingPrice := 20,
        quantity := some 2, eventId := some 9, isDemoMode := false },
      { id := 2, productId := 2, productName := "B", sellingPrice := 5,
        quantity := some 1, eventId := some 9, isDemoMode := false } ],
    lastSale := none,
    activeEvent := some { id := 9, name := "E", fixedCost := 3, status := EventStatus.active },
    eventHistory := [], demoSales := [], demoLastSale := none,
    demoMode := false, nextId := 3 }

-- ========================================
-- Helper lemmas
-- ========================================

/-- Folding `acc + f x` over a list starting from `a` is `a` plus the sum
of the mapped values (the shape of every `reduce((sum, x) => sum + f(x), 0)`
in the source). -/
theorem foldl_add_sum {α : Type} (f : α → ℚ) (l : List α) (a : ℚ) :
    l.foldl (fun acc x => acc + f x) a = a + (l.map f).sum := by
  induction l generalizing a with
  | nil => simp
  | cons h t ih => simp [ih, add_assoc]

/-- C1: for every batch-costed ingredient with total cost C > 0 and total
quantity Q > 0, and every recipe entry using quantity q with 0 < q ≤ Q,
the product cost of the one-entry recipe is exactly C * q / Q — the full
batch cost is never attributed to a single sale. -/
theorem spec_C1 (iid : Nat) (C Q q : ℚ) (hC : 0 < C) (hQ : 0 < Q) (hq : 0 < q)
    (hqQ : q ≤ Q) :
    productCost [{ id := iid, totalCost := some C, totalQuantity := some Q }]
      [{ ingredientId := iid, quantity := q }] = C * q / Q := by
  simp [productCost, unitCost, List.find?, hQ.ne', div_mul_eq_mul_div]

/-- Witness for C1 at the concrete case C = 780, Q = 1000, q = 20: the
contributed cost is 15.60, not 780. -/
theorem spec_C1_witness :
    (0 : ℚ) < 780 ∧ (0 : ℚ) < 1000 ∧ (0 : ℚ) < 20 ∧ (20 : ℚ) ≤ 1000 ∧
    productCost [{ id := 1, totalCost := some 780, totalQuantity := some 1000 }]
      [{ ingredientId := 1, quantity := 20 }] = 15.6 ∧ (15.6 : ℚ) ≠ 780 := by
  refine ⟨by norm_num, by norm_num, by norm_num, by norm_num, ?_, by norm_num⟩
  have h := spec_C1 1 780 1000 20 (by norm_num) (by norm_num) (by norm_num) (by norm_num)
  rw [h]; norm_num

/-- C2: for every sales log and every active event with fixed cost F,
`getSalesSummary()` returns `totalRevenue` equal to the sum of
`sale.sellingPrice` over the log, `netProfit` equal to `totalRevenue - F`
(a single sunk amount, never divided per unit), and `itemsSold` equal to
the sum of the sale quantities, a sale without a quantity field counting
as 1 (per JS `sale.quantity || 1`). -/
theorem spec_C2 (s : AppState) (e : Event) (h : s.activeEvent = some e) :
    (BusinessLogic.getSalesSummary s).totalRevenue
        = (s.sales.map (fun x => x.sellingPrice)).sum ∧
    (BusinessLogic.getSalesSummary s).netProfit
        = (s.sales.map (fun x => x.sellingPrice)).sum - e.fixedCost ∧
    (BusinessLogic.getSalesSummary s).itemsSold
        = (s.sales.map (fun x => qtyOrOne x.quantity)).sum := by
  simp [BusinessLogic.getSalesSummary, h, foldl_add_sum]

/-- Witness for C2 on `w2state`: revenue 10 + 5 = 15, net profit
15 - 7 = 8, items sold 2 + 1 = 3. -/
theorem spec_C2_witness :
    (BusinessLogic.getSalesSummary w2state).totalRevenue = 15 ∧
    (BusinessLogic.getSalesSummary w2state).netProfit = 8 ∧
    (BusinessLogic.getSalesSummary w2state).itemsSold = 3 := by
  obtain ⟨h1, h2, h3⟩ :=
    spec_C2 w2state { id := 9, name := "E", fixedCost := 7, status := EventStatus.active } rfl
  rw [h1, h2, h3]
  simp [w2state, qtyOrOne]
  norm_num

/-- Unfolding one recipe entry of the deduction fold. -/
theorem deductRecipe_cons (l : List Ingredient) (e : RecipeEntry) (r : List RecipeEntry)
    (n : ℚ) :
    BusinessLogic.deductRecipe l (e :: r) n =
      BusinessLogic.deductRecipe
        (BusinessLogic.addQtyFirst l e.ingredientId (-(e.quantity * n))) r n := rfl

/-- Unfolding one recipe entry of the restore fold. -/
theorem restoreRecipe_cons (l : List Ingredient) (e : RecipeEntry) (r : List RecipeEntry)
    (n : ℚ) :
    BusinessLogic.restoreRecipe l (e :: r) n =
      BusinessLogic.restoreRecipe
        (BusinessLogic.addQtyFirst l e.ingredientId (e.quantity * n)) r n := rfl

/-- Two shifts at the same id fuse into one shift by the sum. -/
theorem addQtyFirst_add (l : List Ingredient) (a : Nat) (x y : ℚ) :
    BusinessLogic.addQtyFirst (BusinessLogic.addQtyFirst l a x) a y =
      BusinessLogic.addQtyFirst l a (x + y) := by
  induction l with
  | nil => rfl
  | cons ing rest ih =>
    by_cases ha : ing.id = a
    · simp [BusinessLogic.addQtyFirst, ha, add_assoc]
    · simp [BusinessLogic.addQtyFirst, ha, ih]

/-- Updating the first match for id `a` and then for id `b` commutes with
the opposite order (quantity shifts at fixed positions commute). -/
theorem addQtyFirst_comm (l : List Ingredient) (a b : Nat) (x y : ℚ) :
    BusinessLogic.addQtyFirst (BusinessLogic.addQtyFirst l a x) b y =
      BusinessLogic.addQtyFirst (BusinessLogic.addQtyFirst l b y) a x := by
  induction l with
  | nil => rfl
  | cons ing rest ih =>
    by_cases ha : ing.id = a
    · by_cases hb : ing.id = b
      · have hba : b = a := by rw [← hb]; exact ha
        subst hba
        rw [addQtyFirst_add, addQtyFirst_add, add_comm]
      · have hab : ¬a = b := by rw [← ha]; exact hb
        simp [BusinessLogic.addQtyFirst, ha, hb, hab]
    · by_cases hb : ing.id = b
      · have hba : ¬b = a := by rw [← hb]; exact ha
        simp [BusinessLogic.addQtyFirst, ha, hb, hba]
      · simp [BusinessLogic.addQtyFirst, ha, hb, ih]

/-- Shifting by zero changes nothing. -/
theorem addQtyFirst_zero (l : List Ingredient) (a : Nat) :
    BusinessLogic.addQtyFirst l a 0 = l := by
  induction l with
  | nil => rfl
  | cons ing rest ih =>
    simp only [BusinessLogic.addQtyFirst, add_zero, ih]
    split <;> rfl

/-- A single shift commutes past a whole recipe deduction. -/
theorem deductRecipe_addQtyFirst (r : List RecipeEntry) (l : List Ingredient)
    (n : ℚ) (a : Nat) (x : ℚ) :
    BusinessLogic.deductRecipe (BusinessLogic.addQtyFirst l a x) r n =
      BusinessLogic.addQtyFirst (BusinessLogic.deductRecipe l r n) a x := by
  induction r generalizing l with
  | nil => rfl
  | cons e r' ih =>
    simp only [deductRecipe_cons]
    rw [addQtyFirst_comm, ih]

/-- Restoring a recipe after deducting it returns the ingredient list to
exactly its original value (the undo inverse property). -/
theorem restoreRecipe_deductRecipe (r : List RecipeEntry) (l : List Ingredient) (n : ℚ) :
    BusinessLogic.restoreRecipe (BusinessLogic.deductRecipe l r n) r n = l := by
  induction r generalizing l with
  | nil => rfl
  | cons e r' ih =>
    rw [deductRecipe_cons, restoreRecipe_cons, ← deductRecipe_addQtyFirst,
      addQtyFirst_add, neg_add_cancel, addQtyFirst_zero, ih]

/-- Inversion of a successful `processSale`: the guards passed, the product
was found, and the result components are exactly the deducted state (for a
real sale) with the recorded sale appended and set as Last Sale. -/
theorem processSale_ok (s : AppState) (pid : Nat) (n : ℚ) (demo : Bool) (sale : Sale)
    (s' : AppState)
    (h : BusinessLogic.processSale s pid n demo = (Except.ok sale, s')) :
    ¬n < 1 ∧ BusinessLogic.canSellProduct s pid n = true ∧
      ∃ product, s.products.find? (fun p => p.id == pid) = some product ∧
        sale = { id := s.nextId, productId := product.id, productName := product.name,
                 sellingPrice := product.sellingPrice * n,
                 quantity := some (qtyOrOne (some n)),
                 eventId := s.activeEvent.map (fun e => e.id), isDemoMode := demo } ∧
        s' = { s with
               ingredients := if demo then s.ingredients
                              else BusinessLogic.deductRecipe s.ingredients product.recipe n,
               sales := s.sales ++ [sale], lastSale := some sale,
               nextId := s.nextId + 1 } := by
  unfold BusinessLogic.processSale at h
  split at h
  · simp at h
  · split at h
    · simp at h
    · next hn =>
      split at h
      · simp at h
      · next hcan =>
        split at h
        · simp at h
        · next product hfind =>
          simp only [DataManager.recordSale, Prod.mk.injEq, Except.ok.injEq] at h
          refine ⟨hn, by simpa using hcan, product, hfind, ?_, ?_⟩
          · exact h.1.symm
          · rw [← h.2, ← h.1]

/-- A quantity that passed the `quantity < 1` guard is returned unchanged
by the `|| 1` default. -/
theorem qtyOrOne_of_ge_one (n : ℚ) (h : ¬n < 1) : qtyOrOne (some n) = n := by
  simp only [qtyOrOne]
  rw [if_neg]
  intro h0
  rw [h0] at h
  exact h (by norm_num)

/-- Evaluation of `undoLastSale` when the Last Sale pointer is set and the
product lookup succeeds. -/
theorem undoLastSale_eq (s : AppState) (ls : Sale) (product : Product)
    (hls : s.lastSale = some ls)
    (hfind : s.products.find? (fun p => p.id == ls.productId) = some product) :
    BusinessLogic.undoLastSale s =
      (Except.ok ls,
       { s with
         ingredients :=
           BusinessLogic.restoreRecipe s.ingredients product.recipe (qtyOrOne ls.quantity),
         sales := s.sales.filter (fun x => x.id != ls.id),
         lastSale := none }) := by
  simp only [BusinessLogic.undoLastSale, hls, hfind]

/-- C3: for every state and sellable product, a successful
`processSale(p, n)` followed by `undoLastSale()`, with no intervening
edit, succeeds and restores every ingredient's `totalQuantity` to exactly
its value before the sale (the restore adds back `entry.quantity * n` for
each recipe line, the exact inverse of the deduction). -/
theorem spec_C3 (s : AppState) (pid : Nat) (n : ℚ) (sale : Sale) (s1 : AppState)
    (h : BusinessLogic.processSale s pid n false = (Except.ok sale, s1)) :
    ∃ s2, BusinessLogic.undoLastSale s1 = (Except.ok sale, s2) ∧
      s2.ingredients = s.ingredients := by
  obtain ⟨hn, hcan, product, hfind, hsale, hs1⟩ := processSale_ok s pid n false sale s1 h
  have hq : qtyOrOne (some n) = n := qtyOrOne_of_ge_one n hn
  have hpid : product.id = pid := by simpa using List.find?_some hfind
  have hfind2 : s.products.find? (fun p => p.id == product.id) = some product := by
    rw [hpid]; exact hfind
  subst hs1 hsale
  rw [undoLastSale_eq _ _ product rfl hfind2]
  refine ⟨_, rfl, ?_⟩
  simp [hq, restoreRecipe_deductRecipe]

/-- Witness for C3 on `w3state`: selling 2 units of product 2 deducts the
stock from 10 to 6; undoing restores it to 10. -/
theorem spec_C3_witness :
    BusinessLogic.processSale w3state 2 2 false = (Except.ok w3sale, w3mid) ∧
    ∃ s2, BusinessLogic.undoLastSale w3mid = (Except.ok w3sale, s2) ∧
      s2.ingredients = w3state.ingredients := by
  have h : BusinessLogic.processSale w3state 2 2 false = (Except.ok w3sale, w3mid) := by
    norm_num [BusinessLogic.processSale, BusinessLogic.eventActive,
      BusinessLogic.canSellProduct, BusinessLogic.deductRecipe, BusinessLogic.addQtyFirst,
      DataManager.recordSale, qtyOrOne, w3state, w3sale, w3mid, List.find?]
  exact ⟨h, spec_C3 w3state 2 2 w3sale w3mid h⟩

/-- C5: after a successful `processSale` followed by a successful
`undoLastSale`, a second `undoLastSale` fails with the no-sale-to-undo
error (Last Sale is empty even though earlier sales remain in the log),
and the sales log length equals its pre-sale length.  The hypothesis
`hfresh` states that the id assigned to the new sale does not collide with
any sale already in the log, which `generateId()` guarantees. -/
theorem spec_C5 (s : AppState) (pid : Nat) (n : ℚ) (sale : Sale) (s1 : AppState)
    (hfresh : ∀ x ∈ s.sales, x.id ≠ s.nextId)
    (h : BusinessLogic.processSale s pid n false = (Except.ok sale, s1)) :
    ∃ s2, BusinessLogic.undoLastSale s1 = (Except.ok sale, s2) ∧
      (BusinessLogic.undoLastSale s2).1 = Except.error "No sale to undo" ∧
      s2.sales.length = s.sales.length := by
  obtain ⟨hn, hcan, product, hfind, hsale, hs1⟩ := processSale_ok s pid n false sale s1 h
  have hpid : product.id = pid := by simpa using List.find?_some hfind
  have hfind2 : s.products.find? (fun p => p.id == product.id) = some product := by
    rw [hpid]; exact hfind
  subst hs1 hsale
  rw [undoLastSale_eq _ _ product rfl hfind2]
  refine ⟨_, rfl, ?_, ?_⟩
  · simp [BusinessLogic.undoLastSale]
  · have h1 : s.sales.filter (fun x => x.id != s.nextId) = s.sales :=
      List.filter_eq_self.mpr (fun x hx => by simpa using hfresh x hx)
    simp [List.filter_append, h1]

/-- Witness for C5 on `w5state`: the sale is committed, the undo succeeds,
a second undo fails with the no-sale-to-undo error, and the log is back to
its pre-sale length 1. -/
theorem spec_C5_witness :
    BusinessLogic.processSale w5state 2 2 false = (Except.ok w5sale, w5mid) ∧
    ∃ s2, BusinessLogic.undoLastSale w5mid = (Except.ok w5sale, s2) ∧
      (BusinessLogic.undoLastSale s2).1 = Except.error "No sale to undo" ∧
      s2.sales.length = w5state.sales.length := by
  have h : BusinessLogic.processSale w5state 2 2 false = (Except.ok w5sale, w5mid) := by
    norm_num [BusinessLogic.processSale, BusinessLogic.eventActive,
      BusinessLogic.canSellProduct, BusinessLogic.deductRecipe, BusinessLogic.addQtyFirst,
      DataManager.recordSale, qtyOrOne, w5state, w5sale, w5mid, List.find?]
  refine ⟨h, spec_C5 w5state 2 2 w5sale w5mid ?_ h⟩
  intro x hx
  simp only [w5state, List.mem_singleton] at hx
  subst hx
  decide

/-- The `canSellProduct` check fails exactly under the claim's condition:
product missing or inactive, or some recipe ingredient missing or with
remaining quantity strictly below `recipeQty * quantity`. -/
theorem canSell_false_iff (s : AppState) (pid : Nat) (n : ℚ) :
    BusinessLogic.canSellProduct s pid n = false ↔ insufficientSpec s pid n := by
  rcases hf : s.products.find? (fun p => p.id == pid) with _ | product
  · simp [BusinessLogic.canSellProduct, insufficientSpec, hf]
  · cases hact : product.active with
    | false => simp [BusinessLogic.canSellProduct, insufficientSpec, hf, hact]
    | true =>
      simp only [BusinessLogic.canSellProduct, insufficientSpec, hf, hact, Bool.not_true,
        Bool.false_eq_true, if_false]
      rw [List.all_eq_false]
      constructor
      · rintro ⟨e, he, hpe⟩
        refine Or.inr ⟨e, he, ?_⟩
        rcases hfi : s.ingredients.find? (fun i => i.id == e.ingredientId) with _ | ing
        · rw [hfi]
          trivial
        · rw [hfi] at hpe ⊢
          simpa [not_le] using hpe
      · rintro (hfalse | ⟨e, he, hcond⟩)
        · cases hfalse
        · refine ⟨e, he, ?_⟩
          rcases hfi : s.ingredients.find? (fun i => i.id == e.ingredientId) with _ | ing
          · rw [hfi] at hcond ⊢
            simp
          · rw [hfi] at hcond ⊢
            simpa [not_le] using hcond

/-- C4: `processSale` fails with the no-active-event error when (not in
demo mode and) no event with status `'active'` exists; otherwise with the
invalid-quantity error when `quantity < 1`; otherwise it fails with the
insufficient-ingredients error if and only if the product is missing,
inactive, or some recipe ingredient is missing or strictly short of
`recipeQty * quantity` (so an exact-stock sale succeeds); and every
failure leaves the state (ingredients, sales log, Last Sale) unchanged. -/
theorem spec_C4 (s : AppState) (pid : Nat) (n : ℚ) (demo : Bool) :
    (demo = false → BusinessLogic.eventActive s = false →
      BusinessLogic.processSale s pid n demo =
        (Except.error "No active event. Please start an event before making sales.", s)) ∧
    ((demo = true ∨ BusinessLogic.eventActive s = true) → n < 1 →
      BusinessLogic.processSale s pid n demo =
        (Except.error "Quantity must be at least 1", s)) ∧
    ((demo = true ∨ BusinessLogic.eventActive s = true) → ¬n < 1 →
      (BusinessLogic.processSale s pid n demo =
          (Except.error "Product cannot be sold - insufficient ingredients", s) ↔
        insufficientSpec s pid n)) ∧
    ((demo = true ∨ BusinessLogic.eventActive s = true) → ¬n < 1 →
      ¬insufficientSpec s pid n →
      ∃ sale, (BusinessLogic.processSale s pid n demo).1 = Except.ok sale) ∧
    (∀ msg s', BusinessLogic.processSale s pid n demo = (Except.error msg, s') →
      s' = s) := by
  refine ⟨?_, ?_, ?_, ?_, ?_⟩
  · intro hd he
    simp [BusinessLogic.processSale, hd, he]
  · intro hor hn
    have hg : (!demo && !BusinessLogic.eventActive s) = false := by
      rcases hor with h | h <;> simp [h]
    simp [BusinessLogic.processSale, hg, hn]
  · intro hor hn
    have hg : (!demo && !BusinessLogic.eventActive s) = false := by
      rcases hor with h | h <;> simp [h]
    rw [← canSell_false_iff]
    constructor
    · intro heq
      cases hcs : BusinessLogic.canSellProduct s pid n with
      | false => rfl
      | true =>
        have hfind : ∃ product, s.products.find? (fun p => p.id == pid) = some product := by
          rcases hfz : s.products.find? (fun p => p.id == pid) with _ | p
          · rw [BusinessLogic.canSellProduct, hfz] at hcs
            cases hcs
          · exact ⟨p, hfz⟩
        obtain ⟨product, hfind⟩ := hfind
        simp [BusinessLogic.processSale, hg, hn, hcs, hfind] at heq
    · intro hcs
      simp [BusinessLogic.processSale, hg, hn, hcs]
  · intro hor hn hnins
    have hg : (!demo && !BusinessLogic.eventActive s) = false := by
      rcases hor with h | h <;> simp [h]
    have hcs : BusinessLogic.canSellProduct s pid n = true := by
      cases hcs : BusinessLogic.canSellProduct s pid n with
      | false => exact absurd ((canSell_false_iff s pid n).mp hcs) hnins
      | true => rfl
    have hfind : ∃ product, s.products.find? (fun p => p.id == pid) = some product := by
      rcases hfz : s.products.find? (fun p => p.id == pid) with _ | p
      · rw [BusinessLogic.canSellProduct, hfz] at hcs
        cases hcs
      · exact ⟨p, hfz⟩
    obtain ⟨product, hfind⟩ := hfind
    refine ⟨(DataManager.recordSale
        { s with ingredients := if demo then s.ingredients
                                else BusinessLogic.deductRecipe s.ingredients product.recipe n }
        { id := 0, productId := product.id, productName := product.name,
          sellingPrice := product.sellingPrice * n, quantity := some n,
          eventId := s.activeEvent.map (fun e => e.id), isDemoMode := demo }).1, ?_⟩
    simp only [BusinessLogic.processSale, hg, Bool.false_eq_true, if_false, hn, hcs,
      Bool.not_true, hfind]
  · intro msg s' h
    unfold BusinessLogic.processSale at h
    split at h
    · injection h with h1 h2
      exact h2.symm
    · split at h
      · injection h with h1 h2
        exact h2.symm
      · split at h
        · injection h with h1 h2
          exact h2.symm
        · split at h
          · injection h with h1 h2
            exact h2.symm
          · injection h with h1 h2
            exact Except.noConfusion h1

/-- Witness for C4 on `w4state`: with an active event and stock exactly
equal to the required amount (4 = 2 * 2) the sale succeeds, and for a
missing product id the call fails with the insufficient-ingredients error
leaving the state unchanged. -/
theorem spec_C4_witness :
    (¬(2 : ℚ) < 1) ∧ ¬insufficientSpec w4state 2 2 ∧
    (∃ sale, (BusinessLogic.processSale w4state 2 2 false).1 = Except.ok sale) ∧
    BusinessLogic.processSale w4state 7 1 false =
      (Except.error "Product cannot be sold - insufficient ingredients", w4state) := by
  have hev : BusinessLogic.eventActive w4state = true := by
    simp [BusinessLogic.eventActive, w4state]
  have hn : ¬(2 : ℚ) < 1 := by norm_num
  have hnins : ¬insufficientSpec w4state 2 2 := by
    simp [insufficientSpec, w4state, List.find?]
    norm_num
  refine ⟨hn, hnins, ?_, ?_⟩
  · exact (spec_C4 w4state 2 2 false).2.2.2.1 (Or.inr hev) hn hnins
  · have hins : insufficientSpec w4state 7 1 := by
      simp [insufficientSpec, w4state, List.find?]
    exact ((spec_C4 w4state 7 1 false).2.2.1 (Or.inr hev) (by norm_num)).mpr hins

/-- C6: the claim that no `processSale` can drive an ingredient's
`totalQuantity` negative fails on the code.  In `w6state` every quantity
is non-negative (stock 4), the product is reachable through the product
form (its recipe lists ingredient 1 twice, 3 per line), `canSellProduct`
passes because it checks each recipe line against the undeducted stock
(4 ≥ 3 twice), yet the sale commits and leaves `totalQuantity = -2`. -/
theorem spec_C6 :
    (∀ ing ∈ w6state.ingredients, 0 ≤ ing.totalQuantity) ∧
    (∃ sale, (BusinessLogic.processSale w6state 2 1 false).1 = Except.ok sale) ∧
    (BusinessLogic.processSale w6state 2 1 false).2.ingredients =
      [{ id := 1, totalQuantity := -2 }] := by
  refine ⟨?_, ?_, ?_⟩
  · intro ing hing
    simp only [w6state, List.mem_singleton] at hing
    subst hing
    norm_num
  · refine ⟨{ id := 0, productId := 2, productName := "P", sellingPrice := 5,
              quantity := some 1, eventId := some 9, isDemoMode := false }, ?_⟩
    norm_num [BusinessLogic.processSale, BusinessLogic.eventActive,
      BusinessLogic.canSellProduct, BusinessLogic.deductRecipe, BusinessLogic.addQtyFirst,
      DataManager.recordSale, qtyOrOne, w6state, List.find?]
  · norm_num [BusinessLogic.processSale, BusinessLogic.eventActive,
      BusinessLogic.canSellProduct, BusinessLogic.deductRecipe, BusinessLogic.addQtyFirst,
      DataManager.recordSale, qtyOrOne, w6state, List.find?]

/-- C7: with demo mode on (`settings.demoMode = true`), `processSale` of
the src/unnamed/part_003 revision never changes any ingredient quantity,
never touches the real sales log or the real Last Sale pointer, appends
the recorded sale-like entry to the separate demo log on success, and the
real-sales reporting (summary and breakdown, read with demo mode off) is
identical to what it would be had the demo sale never occurred. -/
theorem spec_C7 (s : AppState) (pid : Nat) (n : ℚ) (hdemo : s.demoMode = true) :
    (V3.BusinessLogic.processSale s pid n).2.ingredients = s.ingredients ∧
    (V3.BusinessLogic.processSale s pid n).2.sales = s.sales ∧
    (V3.BusinessLogic.processSale s pid n).2.lastSale = s.lastSale ∧
    (∀ sale, (V3.BusinessLogic.processSale s pid n).1 = Except.ok sale →
      (V3.BusinessLogic.processSale s pid n).2.demoSales = s.demoSales ++ [sale]) ∧
    V3.BusinessLogic.getSalesSummary
        { (V3.BusinessLogic.processSale s pid n).2 with demoMode := false } =
      V3.BusinessLogic.getSalesSummary { s with demoMode := false } ∧
    V3.BusinessLogic.getSalesBreakdown
        { (V3.BusinessLogic.processSale s pid n).2 with demoMode := false } =
      V3.BusinessLogic.getSalesBreakdown { s with demoMode := false } := by
  have key : ((∃ msg, (V3.BusinessLogic.processSale s pid n).1 = Except.error msg) ∧
        (V3.BusinessLogic.processSale s pid n).2 = s) ∨
      ∃ sale, (V3.BusinessLogic.processSale s pid n).1 = Except.ok sale ∧
        (V3.BusinessLogic.processSale s pid n).2 =
          { s with demoSales := s.demoSales ++ [sale], demoLastSale := some sale,
                   nextId := s.nextId + 1 } := by
    unfold V3.BusinessLogic.processSale
    simp only [hdemo, Bool.not_true, Bool.false_and, Bool.false_eq_true, if_false]
    split
    · exact Or.inl ⟨⟨_, rfl⟩, rfl⟩
    · split
      · exact Or.inl ⟨⟨_, rfl⟩, rfl⟩
      · split
        · exact Or.inl ⟨⟨_, rfl⟩, rfl⟩
        · exact Or.inr ⟨_, rfl, rfl⟩
  rcases key with ⟨⟨msg, herr⟩, hkey⟩ | ⟨sale0, hok, hkey⟩
  · rw [hkey]
    refine ⟨rfl, rfl, rfl, ?_, rfl, rfl⟩
    intro sale hsale
    rw [herr] at hsale
    cases hsale
  · rw [hkey]
    refine ⟨rfl, rfl, rfl, ?_, rfl, rfl⟩
    intro sale hsale
    rw [hok] at hsale
    injection hsale with hs
    subst hs
    rfl

/-- Witness for C7 on `w7state` (demo mode on, no active event, stock 10):
the demo sale leaves ingredients, real sales and real reporting unchanged. -/
theorem spec_C7_witness :
    (V3.BusinessLogic.processSale w7state 2 1).2.ingredients = w7state.ingredients ∧
    (V3.BusinessLogic.processSale w7state 2 1).2.sales = w7state.sales ∧
    V3.BusinessLogic.getSalesSummary
        { (V3.BusinessLogic.processSale w7state 2 1).2 with demoMode := false } =
      V3.BusinessLogic.getSalesSummary { w7state with demoMode := false } := by
  obtain ⟨h1, h2, h3, h4, h5, h6⟩ := spec_C7 w7state 2 1 rfl
  exact ⟨h1, h2, h5⟩

/-- Inserting into the descending list yields a permutation of consing. -/
theorem insertByRevenueDesc_perm (g : BusinessLogic.BreakdownEntry)
    (t : List BusinessLogic.BreakdownEntry) :
    (BusinessLogic.insertByRevenueDesc g t).Perm (g :: t) := by
  induction t with
  | nil => exact List.Perm.refl _
  | cons h t ih =>
    by_cases hlt : h.revenue < g.revenue
    · simp only [BusinessLogic.insertByRevenueDesc, if_pos hlt]
      exact List.Perm.refl _
    · simp only [BusinessLogic.insertByRevenueDesc, if_neg hlt]
      exact (ih.cons h).trans (List.Perm.swap g h t)

/-- The descending sort is a permutation of its input. -/
theorem sortByRevenueDesc_perm (l : List BusinessLogic.BreakdownEntry) :
    (BusinessLogic.sortByRevenueDesc l).Perm l := by
  induction l with
  | nil => exact List.Perm.refl _
  | cons a t ih =>
    have : BusinessLogic.sortByRevenueDesc (a :: t) =
        BusinessLogic.insertByRevenueDesc a (BusinessLogic.sortByRevenueDesc t) := rfl
    rw [this]
    exact (insertByRevenueDesc_perm a _).trans (ih.cons a)

/-- Inserting into a descending-sorted list keeps it descending-sorted. -/
theorem insertByRevenueDesc_sorted (g : BusinessLogic.BreakdownEntry)
    (t : List BusinessLogic.BreakdownEntry)
    (ht : t.Pairwise (fun a b => b.revenue ≤ a.revenue)) :
    (BusinessLogic.insertByRevenueDesc g t).Pairwise (fun a b => b.revenue ≤ a.revenue) := by
  induction t with
  | nil => simp [BusinessLogic.insertByRevenueDesc]
  | cons h t ih =>
    rw [List.pairwise_cons] at ht
    obtain ⟨hh, ht'⟩ := ht
    by_cases hlt : h.revenue < g.revenue
    · simp only [BusinessLogic.insertByRevenueDesc, if_pos hlt]
      refine List.Pairwise.cons ?_ (List.Pairwise.cons hh ht')
      intro x hx
      rcases List.mem_cons.mp hx with rfl | hx
      · exact le_of_lt hlt
      · exact le_trans (hh x hx) (le_of_lt hlt)
    · simp only [BusinessLogic.insertByRevenueDesc, if_neg hlt]
      refine List.Pairwise.cons ?_ (ih ht')
      intro x hx
      have hx' := (insertByRevenueDesc_perm g t).mem_iff.mp hx
      rcases List.mem_cons.mp hx' with rfl | hx''
      · exact not_lt.mp hlt
      · exact hh x hx''

/-- The descending sort is descending-sorted. -/
theorem sortByRevenueDesc_sorted (l : List BusinessLogic.BreakdownEntry) :
    (BusinessLogic.sortByRevenueDesc l).Pairwise (fun a b => b.revenue ≤ a.revenue) := by
  induction l with
  | nil => simp [BusinessLogic.sortByRevenueDesc]
  | cons a t ih => exact insertByRevenueDesc_sorted a _ ih

/-- Appending a sale of a different product leaves a group unchanged. -/
theorem breakdownGroup_append_ne (done : List Sale) (sale : Sale) (k : Nat)
    (h : k ≠ sale.productId) :
    breakdownGroup (done ++ [sale]) k = breakdownGroup done k := by
  unfold breakdownGroup
  have hb : (sale.productId == k) = false := beq_eq_false_iff_ne.mpr (Ne.symm h)
  simp [List.filter_append, List.filter_cons, hb]

/-- Appending a sale of a product not seen before creates its group from
that sale alone. -/
theorem breakdownGroup_append_new (done : List Sale) (sale : Sale)
    (h : sale.productId ∉ done.map (fun x => x.productId)) :
    breakdownGroup (done ++ [sale]) sale.productId =
      { productName := sale.productName, count := qtyOrOne sale.quantity,
        revenue := sale.sellingPrice } := by
  unfold breakdownGroup
  have hnil : done.filter (fun x => x.productId == sale.productId) = [] := by
    rw [List.filter_eq_nil_iff]
    intro x hx hbeq
    exact h (List.mem_map.mpr ⟨x, hx, by simpa using hbeq⟩)
  rw [List.filter_append, hnil, List.nil_append]
  simp [List.filter_cons]

/-- Appending a sale of a product already seen adds its quantity and price
to the existing group. -/
theorem breakdownGroup_append_old (done : List Sale) (sale : Sale)
    (h : sale.productId ∈ done.map (fun x => x.productId)) :
    breakdownGroup (done ++ [sale]) sale.productId =
      { breakdownGroup done sale.productId with
        count := (breakdownGroup done sale.productId).count + qtyOrOne sale.quantity,
        revenue := (breakdownGroup done sale.productId).revenue + sale.sellingPrice } := by
  unfold breakdownGroup
  have hne : done.filter (fun x => x.productId == sale.productId) ≠ [] := by
    obtain ⟨x, hx, hpx⟩ := List.mem_map.mp h
    intro hnil
    have hmem : x ∈ done.filter (fun x => x.productId == sale.productId) :=
      List.mem_filter.mpr ⟨hx, by simpa using hpx⟩
    rw [hnil] at hmem
    cases hmem
  obtain ⟨a, fs, hfs⟩ := List.exists_cons_of_ne_nil hne
  rw [List.filter_append, hfs]
  simp [List.filter_cons, List.map_append, List.sum_append]
  constructor <;> ring

/-- The duplicate-key check of `addToBreakdown` tests exactly membership of
the product id among the object keys. -/
theorem anyKey_iff (m : List (Nat × BusinessLogic.BreakdownEntry)) (pid : Nat) :
    m.any (fun kv => kv.1 == pid) = true ↔ pid ∈ m.map Prod.fst := by
  rw [List.any_eq_true]
  constructor
  · rintro ⟨kv, hkv, hbe⟩
    exact List.mem_map.mpr ⟨kv, hkv, by simpa using hbe⟩
  · intro h
    obtain ⟨kv, hkv, he⟩ := List.mem_map.mp h
    exact ⟨kv, hkv, by simpa using he⟩

/-- The keys after one `addToBreakdown` step: unchanged when the product id
is already present, extended by it otherwise. -/
theorem addToBreakdown_map_fst (m : List (Nat × BusinessLogic.BreakdownEntry)) (sale : Sale) :
    (V3.BusinessLogic.addToBreakdown m sale).map Prod.fst =
      if m.any (fun kv => kv.1 == sale.productId) then m.map Prod.fst
      else m.map Prod.fst ++ [sale.productId] := by
  unfold V3.BusinessLogic.addToBreakdown
  split
  · rw [List.map_map]
    apply List.map_congr_left
    intro kv _
    simp only [Function.comp_apply]
    split <;> rfl
  · simp

/-- One `addToBreakdown` step preserves the grouping invariant: keys are
the distinct product ids of the processed sales, with no duplicates, and
each entry holds that product's specification-side group. -/
theorem addToBreakdown_step (m : List (Nat × BusinessLogic.BreakdownEntry))
    (done : List Sale) (sale : Sale)
    (h1 : (m.map Prod.fst).Nodup)
    (h2 : ∀ k, k ∈ m.map Prod.fst ↔ k ∈ done.map (fun x => x.productId))
    (h3 : ∀ kv ∈ m, kv.2 = breakdownGroup done kv.1) :
    ((V3.BusinessLogic.addToBreakdown m sale).map Prod.fst).Nodup ∧
      (∀ k, k ∈ (V3.BusinessLogic.addToBreakdown m sale).map Prod.fst ↔
        k ∈ (done ++ [sale]).map (fun x => x.productId)) ∧
      (∀ kv ∈ V3.BusinessLogic.addToBreakdown m sale,
        kv.2 = breakdownGroup (done ++ [sale]) kv.1) := by
  have hany := anyKey_iff m sale.productId
  cases han : m.any (fun kv => kv.1 == sale.productId) with
  | true =>
    have hkmem : sale.productId ∈ m.map Prod.fst := hany.mp han
    have hdmem : sale.productId ∈ done.map (fun x => x.productId) := (h2 _).mp hkmem
    refine ⟨?_, ?_, ?_⟩
    · simpa [addToBreakdown_map_fst, han] using h1
    · intro k
      simp only [addToBreakdown_map_fst, han, if_true, List.map_append, List.map_cons,
        List.map_nil, List.mem_append, List.mem_singleton]
      constructor
      · intro hk
        exact Or.inl ((h2 k).mp hk)
      · rintro (hk | rfl)
        · exact (h2 k).mpr hk
        · exact hkmem
    · intro kv hkv
      simp only [V3.BusinessLogic.addToBreakdown, han, if_true] at hkv
      obtain ⟨kv0, hkv0, rfl⟩ := List.mem_map.mp hkv
      by_cases hk : (kv0.1 == sale.productId) = true
      · have hk' : kv0.1 = sale.productId := by simpa using hk
        rw [if_pos hk]
        show { kv0.2 with
               count := kv0.2.count + qtyOrOne sale.quantity,
               revenue := kv0.2.revenue + sale.sellingPrice } =
          breakdownGroup (done ++ [sale]) kv0.1
        rw [h3 kv0 hkv0, hk', breakdownGroup_append_old done sale hdmem]
      · rw [if_neg hk]
        have hkne : kv0.1 ≠ sale.productId := by simpa using hk
        rw [breakdownGroup_append_ne done sale kv0.1 hkne]
        exact h3 kv0 hkv0
  | false =>
    have hknmem : sale.productId ∉ m.map Prod.fst := by
      intro hmem
      have hx := hany.mpr hmem
      rw [han] at hx
      cases hx
    have hdnmem : sale.productId ∉ done.map (fun x => x.productId) :=
      fun hd => hknmem ((h2 _).mpr hd)
    refine ⟨?_, ?_, ?_⟩
    · simp only [addToBreakdown_map_fst, han, Bool.false_eq_true, if_false]
      rw [List.nodup_append]
      refine ⟨h1, List.nodup_singleton _, ?_⟩
      intro a ha hb
      rw [List.mem_singleton] at hb
      subst hb
      exact hknmem ha
    · intro k
      simp only [addToBreakdown_map_fst, han, Bool.false_eq_true, if_false,
        List.map_append, List.map_cons, List.map_nil, List.mem_append, List.mem_singleton]
      constructor
      · rintro (hk | rfl)
        · exact Or.inl ((h2 k).mp hk)
        · exact Or.inr rfl
      · rintro (hk | rfl)
        · exact Or.inl ((h2 k).mpr hk)
        · exact Or.inr rfl
    · intro kv hkv
      simp only [V3.BusinessLogic.addToBreakdown, han, Bool.false_eq_true, if_false] at hkv
      rcases List.mem_append.mp hkv with hkv | hkv
      · have hkne : kv.1 ≠ sale.productId := by
          intro he
          exact hknmem (he ▸ List.mem_map_of_mem Prod.fst hkv)
        rw [breakdownGroup_append_ne done sale kv.1 hkne]
        exact h3 kv hkv
      · rw [List.mem_singleton] at hkv
        subst hkv
        rw [breakdownGroup_append_new done sale hdnmem]

/-- Folding `addToBreakdown` over a sales list, starting from an
accumulator satisfying the grouping invariant for the already-processed
sales, yields an accumulator satisfying it for all sales. -/
theorem breakdown_fold (l : List Sale) :
    ∀ (m : List (Nat × BusinessLogic.BreakdownEntry)) (done : List Sale),
      (m.map Prod.fst).Nodup →
      (∀ k, k ∈ m.map Prod.fst ↔ k ∈ done.map (fun x => x.productId)) →
      (∀ kv ∈ m, kv.2 = breakdownGroup done kv.1) →
      ((l.foldl V3.BusinessLogic.addToBreakdown m).map Prod.fst).Nodup ∧
        (∀ k, k ∈ (l.foldl V3.BusinessLogic.addToBreakdown m).map Prod.fst ↔
          k ∈ (done ++ l).map (fun x => x.productId)) ∧
        (∀ kv ∈ l.foldl V3.BusinessLogic.addToBreakdown m,
          kv.2 = breakdownGroup (done ++ l) kv.1) := by
  induction l with
  | nil =>
    intro m done h1 h2 h3
    rw [List.append_nil]
    exact ⟨h1, h2, h3⟩
  | cons sale l' ih =>
    intro m done h1 h2 h3
    obtain ⟨s1, s2, s3⟩ := addToBreakdown_step m done sale h1 h2 h3
    have hres := ih (V3.BusinessLogic.addToBreakdown m sale) (done ++ [sale]) s1 s2 s3
    have hd : (done ++ [sale]) ++ l' = done ++ sale :: l' := by
      rw [List.append_assoc, List.singleton_append]
    rw [hd] at hres
    exact hres

/-- The sorted breakdown of a sales list is descending-sorted by revenue
and is a permutation of one specification-side group per distinct product
id. -/
theorem breakdown_values_perm (l : List Sale) :
    ((BusinessLogic.sortByRevenueDesc
        ((l.foldl V3.BusinessLogic.addToBreakdown []).map Prod.snd)).Pairwise
      (fun a b => b.revenue ≤ a.revenue)) ∧
    (BusinessLogic.sortByRevenueDesc
        ((l.foldl V3.BusinessLogic.addToBreakdown []).map Prod.snd)).Perm
      (((l.map (fun x => x.productId)).dedup).map (breakdownGroup l)) := by
  obtain ⟨h1, h2, h3⟩ := breakdown_fold l [] [] (by simp) (by simp) (by simp)
  constructor
  · exact sortByRevenueDesc_sorted _
  · refine (sortByRevenueDesc_perm _).trans ?_
    have hvals : (l.foldl V3.BusinessLogic.addToBreakdown []).map Prod.snd =
        ((l.foldl V3.BusinessLogic.addToBreakdown []).map Prod.fst).map (breakdownGroup l) := by
      rw [List.map_map]
      apply List.map_congr_left
      intro kv hkv
      have hh := h3 kv hkv
      simpa using hh
    rw [hvals]
    apply List.Perm.map
    rw [List.perm_ext_iff_of_nodup h1 (List.nodup_dedup _)]
    intro a
    rw [List.mem_dedup]
    have hh := h2 a
    simpa using hh

/-- C8: `getSalesBreakdown()` (src/unnamed/part_003, the revision whose
comment marks the batch counting as FIXED) returns one entry per distinct
productId of the selected sales log, sorted in descending order of
revenue; each entry's revenue sums `sale.sellingPrice` over that product's
sales and each entry's count sums the sale quantities (defaulting to 1),
not the number of transactions. -/
theorem spec_C8 (s : AppState) :
    ((V3.BusinessLogic.getSalesBreakdown s).Pairwise
      (fun a b => b.revenue ≤ a.revenue)) ∧
    (V3.BusinessLogic.getSalesBreakdown s).Perm
      ((((if s.demoMode then s.demoSales else s.sales).map
          (fun x => x.productId)).dedup).map
        (breakdownGroup (if s.demoMode then s.demoSales else s.sales))) :=
  breakdown_values_perm (if s.demoMode then s.demoSales else s.sales)

/-- Length accounting for a filter by the negated predicate. -/
theorem filter_not_length {α : Type} (p : α → Bool) (l : List α) :
    (l.filter (fun x => !(p x))).length + l.countP p = l.length := by
  induction l with
  | nil => simp
  | cons h t ih =>
    by_cases hp : p h <;> simp [List.filter_cons, List.countP_cons, hp] <;> omega

/-- The blocked-delete condition of the UI layer matches the claim's
dangling-reference condition. -/
theorem usedIn_iff (s : AppState) (iid : Nat) :
    0 < (s.products.filter (fun p => p.recipe.any (fun r => r.ingredientId == iid))).length ↔
      referencesIngredient s iid := by
  rw [List.length_pos_iff_exists_mem]
  constructor
  · rintro ⟨p, hp⟩
    obtain ⟨hpm, hpa⟩ := List.mem_filter.mp hp
    obtain ⟨r, hr, hre⟩ := List.any_eq_true.mp hpa
    exact ⟨p, hpm, r, hr, by simpa using hre⟩
  · rintro ⟨p, hpm, r, hr, hre⟩
    exact ⟨p, List.mem_filter.mpr ⟨hpm, List.any_eq_true.mpr ⟨r, hr, by simpa using hre⟩⟩⟩

/-- C9: deleting an ingredient whose id is referenced by some product's
recipe fails with the dangling-reference error and leaves the whole store
(in particular the ingredient list) unchanged; once no recipe references
it, the delete succeeds and removes exactly the entries with that id,
keeping every other ingredient. -/
theorem spec_C9 (s : AppState) (iid : Nat) :
    (referencesIngredient s iid →
      ∃ msg, UIManager.deleteIngredient s iid = (Except.error msg, s)) ∧
    (¬referencesIngredient s iid →
      (UIManager.deleteIngredient s iid).1 = Except.ok () ∧
      (∀ ing, ing ∈ (UIManager.deleteIngredient s iid).2.ingredients ↔
        ing ∈ s.ingredients ∧ ing.id ≠ iid) ∧
      (UIManager.deleteIngredient s iid).2.products = s.products ∧
      (s.ingredients.countP (fun i => i.id == iid) = 1 →
        (UIManager.deleteIngredient s iid).2.ingredients.length + 1 =
          s.ingredients.length)) := by
  by_cases hcond :
      0 < (s.products.filter (fun p => p.recipe.any (fun r => r.ingredientId == iid))).length
  · constructor
    · intro _
      refine ⟨"Cannot delete - used in: " ++
        String.intercalate ", "
          ((s.products.filter (fun p => p.recipe.any (fun r => r.ingredientId == iid))).map
            (fun p => p.name)), ?_⟩
      simp only [UIManager.deleteIngredient, if_pos hcond]
    · intro hnref
      exact absurd ((usedIn_iff s iid).mp hcond) hnref
  · constructor
    · intro href
      exact absurd ((usedIn_iff s iid).mpr href) hcond
    · intro _
      have hres : UIManager.deleteIngredient s iid =
          (Except.ok (), DataManager.deleteIngredient s iid) := by
        simp only [UIManager.deleteIngredient, if_neg hcond]
      rw [hres]
      refine ⟨rfl, ?_, rfl, ?_⟩
      · intro ing
        simp [DataManager.deleteIngredient, List.mem_filter]
      · intro hcount
        have hpred : (fun (i : Ingredient) => i.id != iid) =
            (fun i => !(i.id == iid)) := rfl
        have hlen := filter_not_length (fun (i : Ingredient) => i.id == iid) s.ingredients
        simp only [DataManager.deleteIngredient, hpred]
        omega

/-- Witness for C9 on `w9state`: deleting ingredient 1 is blocked while
product 5's recipe references it; after editing the product to reference
ingredient 2 instead, the delete succeeds. -/
theorem spec_C9_witness :
    referencesIngredient w9state 1 ∧
    (∃ msg, UIManager.deleteIngredient w9state 1 = (Except.error msg, w9state)) ∧
    ¬referencesIngredient
        (DataManager.updateProduct w9state 5 "P" 5 [{ ingredientId := 2, quantity := 1 }] true) 1 ∧
    (UIManager.deleteIngredient
        (DataManager.updateProduct w9state 5 "P" 5 [{ ingredientId := 2, quantity := 1 }] true)
        1).1 = Except.ok () := by
  have h1 : referencesIngredient w9state 1 :=
    ⟨{ id := 5, name := "P", sellingPrice := 5, active := true,
       recipe := [{ ingredientId := 1, quantity := 2 }] },
     by simp [w9state], { ingredientId := 1, quantity := 2 }, by simp, rfl⟩
  have h3 : ¬referencesIngredient
      (DataManager.updateProduct w9state 5 "P" 5 [{ ingredientId := 2, quantity := 1 }] true) 1 := by
    rintro ⟨p, hp, r, hr, he⟩
    simp [DataManager.updateProduct, w9state] at hp
    subst hp
    simp at hr
    subst hr
    exact absurd he (by decide)
  exact ⟨h1, (spec_C9 w9state 1).1 h1, h3,
    (((spec_C9 _ 1).2 h3).1)⟩

/-- A sum of per-sale quantities that are each at least 1 is at least the
number of sales. -/
theorem sum_qty_ge_length (l : List Sale)
    (hall : ∀ x ∈ l, 1 ≤ qtyOrOne x.quantity) :
    (l.length : ℚ) ≤ (l.map (fun x => qtyOrOne x.quantity)).sum := by
  induction l with
  | nil => simp
  | cons a t ih =>
    have ha := hall a (List.mem_cons_self a t)
    have ih' := ih (fun y hy => hall y (List.mem_cons_of_mem a hy))
    simp only [List.length_cons, List.map_cons, List.sum_cons]
    push_cast
    linarith

/-- With every quantity at least 1 and some quantity strictly above 1, the
quantity sum strictly exceeds the number of sales. -/
theorem length_lt_sum_qty (l : List Sale)
    (hall : ∀ x ∈ l, 1 ≤ qtyOrOne x.quantity)
    (hone : ∃ x ∈ l, 1 < qtyOrOne x.quantity) :
    (l.length : ℚ) < (l.map (fun x => qtyOrOne x.quantity)).sum := by
  induction l with
  | nil =>
    obtain ⟨x, hx, _⟩ := hone
    cases hx
  | cons a t ih =>
    obtain ⟨x, hx, hxq⟩ := hone
    rcases List.mem_cons.mp hx with rfl | hx'
    · have hrest := sum_qty_ge_length t (fun y hy => hall y (List.mem_cons_of_mem x hy))
      simp only [List.length_cons, List.map_cons, List.sum_cons]
      push_cast
      linarith
    · have ha := hall a (List.mem_cons_self a t)
      have ih' := ih (fun y hy => hall y (List.mem_cons_of_mem a hy)) ⟨x, hx', hxq⟩
      simp only [List.length_cons, List.map_cons, List.sum_cons]
      push_cast
      linarith

/-- C10 (implicit claim): the `itemsSold` that `endEvent()` stores in the
closed event's history record is the number of sale records (transaction
count), not the quantity sum; so whenever some sale has quantity above 1
(quantities being counts of at least 1), the closed event's `itemsSold`
is strictly below `getSalesSummary().itemsSold` over the same sales log,
while `totalRevenue` and profit agree between the two. -/
theorem spec_C10 (s : AppState) (e : Event) (h : s.activeEvent = some e)
    (hst : e.status = EventStatus.active)
    (hall : ∀ x ∈ s.sales, 1 ≤ qtyOrOne x.quantity)
    (hone : ∃ x ∈ s.sales, 1 < qtyOrOne x.quantity) :
    ∃ ce, (DataManager.endEvent s).1 = some ce ∧
      (DataManager.endEvent s).2.eventHistory = s.eventHistory ++ [ce] ∧
      ce.itemsSold = s.sales.length ∧
      ((ce.itemsSold : ℚ) < (BusinessLogic.getSalesSummary s).itemsSold) ∧
      ce.totalRevenue = (BusinessLogic.getSalesSummary s).totalRevenue ∧
      ce.profit = (BusinessLogic.getSalesSummary s).netProfit := by
  have hne : ¬e.status ≠ EventStatus.active := by simp [hst]
  have hev : DataManager.endEvent s =
      (some { id := e.id, name := e.name, fixedCost := e.fixedCost,
              totalRevenue := s.sales.foldl (fun sum sale => sum + sale.sellingPrice) 0,
              profit := (s.sales.foldl (fun sum sale => sum + sale.sellingPrice) 0) - e.fixedCost,
              itemsSold := s.sales.length, salesLog := s.sales },
       { s with
         eventHistory := s.eventHistory ++
           [{ id := e.id, name := e.name, fixedCost := e.fixedCost,
              totalRevenue := s.sales.foldl (fun sum sale => sum + sale.sellingPrice) 0,
              profit := (s.sales.foldl (fun sum sale => sum + sale.sellingPrice) 0) - e.fixedCost,
              itemsSold := s.sales.length, salesLog := s.sales }],
         activeEvent := none }) := by
    simp only [DataManager.endEvent, h]
    rw [if_neg hne]
  rw [hev]
  refine ⟨_, rfl, rfl, rfl, ?_, ?_, ?_⟩
  · have hsum : (BusinessLogic.getSalesSummary s).itemsSold =
        (s.sales.map (fun x => qtyOrOne x.quantity)).sum := by
      simp [BusinessLogic.getSalesSummary, foldl_add_sum]
    rw [hsum]
    exact length_lt_sum_qty s.sales hall hone
  · rfl
  · simp [BusinessLogic.getSalesSummary, h]

/-- Witness for C10 on `w10state` (one batch sale of quantity 2 and one
single sale): the closed event records 2 items sold while the summary
counts 3. -/
theorem spec_C10_witness :
    ∃ ce, (DataManager.endEvent w10state).1 = some ce ∧ ce.itemsSold = 2 ∧
      (BusinessLogic.getSalesSummary w10state).itemsSold = 3 ∧
      ((ce.itemsSold : ℚ) < (BusinessLogic.getSalesSummary w10state).itemsSold) := by
  have hall : ∀ x ∈ w10state.sales, 1 ≤ qtyOrOne x.quantity := by
    intro x hx
    simp only [w10state, List.mem_cons, List.mem_singleton, List.not_mem_nil] at hx
    rcases hx with rfl | rfl | hx
    · norm_num [qtyOrOne]
    · norm_num [qtyOrOne]
    · cases hx
  have hone : ∃ x ∈ w10state.sales, 1 < qtyOrOne x.quantity := by
    refine ⟨{ id := 1, productId := 1, productName := "A", sellingPrice := 20,
              quantity := some 2, eventId := some 9, isDemoMode := false }, ?_, ?_⟩
    · simp [w10state]
    · norm_num [qtyOrOne]
  obtain ⟨ce, h1, h2, h3, h4, h5, h6⟩ :=
    spec_C10 w10state { id := 9, name := "E", fixedCost := 3, status := EventStatus.active }
      rfl rfl hall hone
  refine ⟨ce, h1, ?_, ?_, h4⟩
  · rw [h3]
    rfl
  · simp [BusinessLogic.getSalesSummary, w10state, qtyOrOne]
    norm_num
